import Mathlib

/-!
Verification of the recipe-management backend (`app/core/models.py`,
`app/recipe/views.py`, `app/recipe/serializers.py`).

The Django/DRF layer is embedded shallowly: querysets become list-valued
functions over an explicit database record, exceptions become `Except`,
HTTP responses become an explicit result type.  Join semantics of the
relational store are modelled faithfully: filtering through a many-to-many
association multiplies rows per matching association, which is why the
tag/ingredient path calls `distinct()` and the recipe path (which does not)
can return duplicates.
-/

deriving instance DecidableEq for Except

namespace RecipeApi

/-! ### Python string primitives

The Python builtins the views rely on (`str.strip`, `str.split`,
`str.rsplit`, `int(...)`), embedded as structural functions on character
lists so that every concrete run evaluates inside the kernel. -/

/-- Python `str.strip()`: drop whitespace from both ends. -/
def pyStrip (cs : List Char) : List Char :=
  ((cs.dropWhile Char.isWhitespace).reverse.dropWhile Char.isWhitespace).reverse

/-- Python `str.split(sep)` for a one-character separator: splits at every
occurrence, keeping empty tokens (`"".split(',') == ['']`). -/
def pySplit (sep : Char) : List Char → List (List Char)
  | [] => [[]]
  | c :: rest =>
    if c = sep then [] :: pySplit sep rest
    else
      match pySplit sep rest with
      | [] => [[c]]
      | t :: ts => (c :: t) :: ts

/-- Python `str.rsplit(sep, 1)` for a one-character separator: split at the
last occurrence, `none` when the separator is absent. -/
def pyRsplitOnce (sep : Char) (cs : List Char) : Option (List Char × List Char) :=
  let rev := cs.reverse
  match rev.dropWhile (fun c => c ≠ sep) with
  | [] => none
  | _ :: frontRev => some (frontRev.reverse, (rev.takeWhile (fun c => c ≠ sep)).reverse)

/-- Lexicographic comparison of character lists by code point, the model of
the store's text collation used by `order_by`. -/
def lexLe : List Char → List Char → Bool
  | [], _ => true
  | _ :: _, [] => false
  | a :: as, b :: bs =>
    if a.toNat = b.toNat then lexLe as bs else decide (a.toNat < b.toNat)

/-- `a ≤ b` on strings, by code points. -/
def strLe (a b : String) : Bool := lexLe a.data b.data

theorem lexLe_total : ∀ as bs : List Char, lexLe as bs = true ∨ lexLe bs as = true
  | [], _ => by left; rfl
  | _ :: _, [] => by right; rfl
  | a :: as, b :: bs => by
    by_cases h : a.toNat = b.toNat
    · rcases lexLe_total as bs with ih | ih
      · left; simp [lexLe, h, ih]
      · right; simp [lexLe, h.symm, ih]
    · rcases Nat.lt_or_ge a.toNat b.toNat with hlt | hge
      · left; simp [lexLe, h, hlt]
      · right
        have hne : b.toNat ≠ a.toNat := fun e => h e.symm
        have : b.toNat < a.toNat := lt_of_le_of_ne hge hne
        simp [lexLe, hne, this]

theorem lexLe_trans :
    ∀ as bs cs : List Char, lexLe as bs = true → lexLe bs cs = true →
      lexLe as cs = true
  | [], _, _, _, _ => rfl
  | a :: as, [], cs, h₁, _ => by simp [lexLe] at h₁
  | a :: as, b :: bs, [], _, h₂ => by simp [lexLe] at h₂
  | a :: as, b :: bs, c :: cs, h₁, h₂ => by
    simp only [lexLe] at h₁ h₂ ⊢
    by_cases hab : a.toNat = b.toNat <;> by_cases hbc : b.toNat = c.toNat
    · rw [if_pos hab] at h₁
      rw [if_pos hbc] at h₂
      rw [if_pos (hab.trans hbc)]
      exact lexLe_trans as bs cs h₁ h₂
    · rw [if_pos hab] at h₁
      rw [if_neg hbc] at h₂
      have h₂' : b.toNat < c.toNat := of_decide_eq_true h₂
      have hac : a.toNat ≠ c.toNat := by omega
      rw [if_neg hac]
      exact decide_eq_true (by omega)
    · rw [if_neg hab] at h₁
      rw [if_pos hbc] at h₂
      have h₁' : a.toNat < b.toNat := of_decide_eq_true h₁
      have hac : a.toNat ≠ c.toNat := by omega
      rw [if_neg hac]
      exact decide_eq_true (by omega)
    · rw [if_neg hab] at h₁
      rw [if_neg hbc] at h₂
      have h₁' : a.toNat < b.toNat := of_decide_eq_true h₁
      have h₂' : b.toNat < c.toNat := of_decide_eq_true h₂
      have hac : a.toNat ≠ c.toNat := by omega
      rw [if_neg hac]
      exact decide_eq_true (by omega)

theorem strLe_total (a b : String) : strLe a b = true ∨ strLe b a = true :=
  lexLe_total a.data b.data

theorem strLe_trans {a b c : String} (h₁ : strLe a b = true)
    (h₂ : strLe b c = true) : strLe a c = true :=
  lexLe_trans a.data b.data c.data h₁ h₂

/-! ### Python integer parsing

`int(s)` for a decimal string: optional surrounding whitespace, optional
sign, then digits with optional single underscore separators. -/

def digitVal (c : Char) : Nat := c.toNat - 48

def digitsVal (cs : List Char) : Nat := cs.foldl (fun a c => a * 10 + digitVal c) 0

/-- Remaining characters of a decimal literal after its first digit:
digits, with single underscores allowed between digits only. -/
def digitTail : List Char → Option (List Char)
  | [] => some []
  | ['_'] => none
  | '_' :: c :: rest => if c.isDigit then (digitTail rest).map (c :: ·) else none
  | c :: rest => if c.isDigit then (digitTail rest).map (c :: ·) else none

/-- A full decimal digit part: at least one digit. -/
def digitsOf : List Char → Option Nat
  | [] => none
  | c :: rest =>
    if c.isDigit then (digitTail rest).map (fun ds => digitsVal (c :: ds)) else none

/-- Python `int(s)`: raises `ValueError` (here `Except.error`) on anything that
is not an optionally signed decimal integer with optional surrounding
whitespace. -/
def pyInt (s : String) : Except String Int :=
  let core : Option Int :=
    match pyStrip s.data with
    | '+' :: rest => (digitsOf rest).map (fun n => (n : Int))
    | '-' :: rest => (digitsOf rest).map (fun n => -(n : Int))
    | rest => (digitsOf rest).map (fun n => (n : Int))
  match core with
  | some n => .ok n
  | none => .error ("invalid literal for int() with base 10: " ++ s)

/-! ### Data model (`core/models.py`) -/

/-- How a password is persisted on a user row.  `set_password` always stores a
hash derived from the raw password; the `plaintext` shape exists only to state
that it is never used. -/
inductive StoredPassword where
  | plaintext (raw : Option String)
  | hashed (ofRaw : Option String)
deriving DecidableEq, Repr

structure User where
  email : String
  name : String
  password : StoredPassword
  is_active : Bool
  is_staff : Bool
  is_superuser : Bool
deriving DecidableEq, Repr

/-- Python exception classes distinguished by the spec and the code. -/
inductive PyExc where
  | valueError (msg : String)
  | validationError (msg : String)
deriving DecidableEq, Repr

/-- `BaseUserManager.normalize_email`: lower-case the domain part after the
last `@` of the stripped address; an address without `@` is returned as is. -/
def normalize_email (email : String) : String :=
  match pyRsplitOnce '@' (pyStrip email.data) with
  | none => email
  | some (emailName, domainPart) =>
    ⟨emailName ++ '@' :: domainPart.map Char.toLower⟩

/-- `UserManager.create_user(email, password=None, **extra_fields)`:
`raise ValueError` when `email` is falsy, otherwise build the user,
`set_password` (stores a hash, never the raw password) and save. -/
def create_user (email : String) (password : Option String) (name : String) :
    Except PyExc User :=
  if email.isEmpty then
    .error (.valueError "Users must have an email address")
  else
    .ok { email := normalize_email email
          name := name
          password := .hashed password
          is_active := true
          is_staff := false
          is_superuser := false }

def failsWithValidationError (r : Except PyExc User) : Bool :=
  match r with
  | .error (.validationError _) => true
  | _ => false

/-- Tag and Ingredient have the same shape (id, owner, name); both are managed
by `BaseRecipeAttrViewSet`, so they are embedded as a single record type. -/
structure Attr where
  id : Int
  user : Int
  name : String
deriving DecidableEq, Repr

/-- A recipe row together with its `tags` / `ingredients` many-to-many
association rows (lists of tag/ingredient ids). -/
structure Recipe where
  id : Int
  user : Int
  title : String
  time_minutes : Int
  price : Int
  link : String
  image : Option String
  tags : List Int
  ingredients : List Int
deriving DecidableEq, Repr

/-- The relational store visible to the viewsets. -/
structure Db where
  tags : List Attr
  ingredients : List Attr
  recipes : List Recipe
deriving DecidableEq, Repr

/-- `order_by('-name')`: descending order on the name column. -/
def nameDesc (a b : Attr) : Prop := strLe b.name a.name = true

instance : DecidableRel nameDesc := fun a b =>
  instDecidableEqBool (strLe b.name a.name) true

instance : IsTotal Attr nameDesc :=
  ⟨fun a b => strLe_total b.name a.name⟩

instance : IsTrans Attr nameDesc :=
  ⟨fun _ _ _ h₁ h₂ => strLe_trans h₂ h₁⟩

/-- `order_by('-id')`: descending order on the primary key. -/
def idDesc (a b : Recipe) : Prop := b.id ≤ a.id

instance : DecidableRel idDesc := fun a b => Int.decLe b.id a.id

instance : IsTotal Recipe idDesc := ⟨fun a b => Int.le_total b.id a.id⟩

instance : IsTrans Recipe idDesc := ⟨fun _ _ _ h₁ h₂ => le_trans h₂ h₁⟩

/-! ### Query parameters -/

/-- `request.query_params.get(k)` yields `none` when the parameter is absent. -/
structure AttrParams where
  assigned_only : Option String := none
deriving DecidableEq, Repr

structure RecipeParams where
  tags : Option String := none
  ingredients : Option String := none
  user : Option String := none
deriving DecidableEq, Repr

/-- Python truthiness of `query_params.get(k)`: `None` and `""` are falsy. -/
def strTruthy : Option String → Bool
  | none => false
  | some s => !s.isEmpty

/-! ### `BaseRecipeAttrViewSet.get_queryset` (`recipe/views.py`) -/

/-- `bool(int(query_params.get('assigned_only', 0)))`: the default `0` is
already an int; a present value goes through `int()` and may raise. -/
def assignedOnlyFlag (p : AttrParams) : Except String Bool := do
  let n ← match p.assigned_only with
    | none => pure (0 : Int)
    | some s => pyInt s
  pure (n != 0)

/-- `queryset.filter(recipe__isnull=False)`: join against the Recipe↔Attr
association; one output row per association referencing the attribute. -/
def assignedJoin (recipes : List Recipe) (links : Recipe → List Int) (q : List Attr) :
    List Attr :=
  q.flatMap fun t => (recipes.flatMap fun r => (links r).filter (· = t.id)).map fun _ => t

/-- The shared `get_queryset` of `BaseRecipeAttrViewSet`: optional assigned-only
semi-join, owner scoping to the request user, `order_by('-name')`,
`distinct()`. -/
def base_attr_get_queryset (p : AttrParams) (requestUser : Int)
    (items : List Attr) (recipes : List Recipe) (links : Recipe → List Int) :
    Except String (List Attr) := do
  let assigned_only ← assignedOnlyFlag p
  let queryset := items
  let queryset := if assigned_only then assignedJoin recipes links queryset else queryset
  pure ((List.insertionSort nameDesc
    (queryset.filter fun t => t.user == requestUser)).dedup)

def tag_get_queryset (p : AttrParams) (requestUser : Int) (db : Db) :
    Except String (List Attr) :=
  base_attr_get_queryset p requestUser db.tags db.recipes (·.tags)

def ingredient_get_queryset (p : AttrParams) (requestUser : Int) (db : Db) :
    Except String (List Attr) :=
  base_attr_get_queryset p requestUser db.ingredients db.recipes (·.ingredients)

/-- `BaseRecipeAttrViewSet.perform_create`: `serializer.save(user=request.user)`.
The serializer declares only `name` (`id` read-only), so any owner value in the
payload record is discarded and the request user is stored. -/
structure AttrPayload where
  name : String
  user : Option Int := none
deriving DecidableEq, Repr

def base_attr_perform_create (requestUser : Int) (payload : AttrPayload)
    (newId : Int) : Attr :=
  { id := newId, user := requestUser, name := payload.name }

/-! ### `RecipeViewSet` (`recipe/views.py`) -/

/-- `_params_to_ints`: `[int(str_id) for str_id in qs.split(',')]`; the first
token that fails to parse raises. -/
def params_to_ints (qs : String) : Except String (List Int) :=
  go (pySplit ',' qs.data)
where
  go : List (List Char) → Except String (List Int)
    | [] => .ok []
    | t :: ts =>
      match pyInt ⟨t⟩ with
      | .error e => .error e
      | .ok n => (go ts).map (n :: ·)

/-- `queryset.filter(xs__id__in=ids)` through a many-to-many: join with the
association table, one output row per association whose id is in `ids`. -/
def filterIdIn (ids : List Int) (links : Recipe → List Int) (q : List Recipe) :
    List Recipe :=
  q.flatMap fun r => ((links r).filter (· ∈ ids)).map fun _ => r

/-- `RecipeViewSet.get_queryset`: despite its docstring it never consults
`request.user`; it filters only by the optional `tags`, `ingredients` and
`user` query parameters and orders by `-id`, with no `distinct()`. -/
def recipe_get_queryset (p : RecipeParams) (db : Db) : Except String (List Recipe) := do
  let queryset := db.recipes
  let queryset ←
    if strTruthy p.tags then do
      let tag_ids ← params_to_ints (p.tags.getD "")
      pure (filterIdIn tag_ids (·.tags) queryset)
    else pure queryset
  let queryset ←
    if strTruthy p.ingredients then do
      let ingredient_ids ← params_to_ints (p.ingredients.getD "")
      pure (filterIdIn ingredient_ids (·.ingredients) queryset)
    else pure queryset
  let queryset ←
    if strTruthy p.user then do
      let author ← pyInt (p.user.getD "")
      pure (queryset.filter fun r => r.user == author)
    else pure queryset
  pure (List.insertionSort idDesc queryset)

/-- `RecipeViewSet.perform_create`: `serializer.save(user=request.user)`.  The
recipe serializer exposes no owner field, so the stored owner is always the
request user. -/
structure RecipePayload where
  title : String
  time_minutes : Int
  price : Int
  link : String
  tags : List Int
  ingredients : List Int
  user : Option Int := none
deriving DecidableEq, Repr

def recipe_perform_create (requestUser : Int) (p : RecipePayload) (newId : Int) :
    Recipe :=
  { id := newId
    user := requestUser
    title := p.title
    time_minutes := p.time_minutes
    price := p.price
    link := p.link
    image := none
    tags := p.tags
    ingredients := p.ingredients }

/-! ### Access control (`recipe/views.py`) -/

inductive PermissionClass where
  | isAuthenticated
  | allowAny
deriving DecidableEq, Repr

/-- `IsAuthenticated.has_permission` / `AllowAny.has_permission`. -/
def has_permission (authenticated : Bool) : PermissionClass → Bool
  | .isAuthenticated => authenticated
  | .allowAny => true

/-- `RecipeViewSet.permission_classes_by_action`, a dict keyed by the DRF
action name; `none` models a `KeyError`. -/
def permission_classes_by_action (action : String) : Option (List PermissionClass) :=
  if action = "create" then some [.isAuthenticated]
  else if action = "update" then some [.isAuthenticated]
  else if action = "partial_update" then some [.isAuthenticated]
  else if action = "destroy" then some [.isAuthenticated]
  else if action = "list" then some [.allowAny]
  else if action = "retrieve" then some [.allowAny]
  else none

/-- `RecipeViewSet.get_permissions`: look the action up in the dict; on
`KeyError` fall back to `self.permission_classes`.  That fallback attribute is
inherited from framework defaults that are not part of `src/`, so it stays a
parameter; every action named by the spec resolves in the dict and never
consults it. -/
def recipe_get_permissions (fallback : List PermissionClass) (action : String) :
    List PermissionClass :=
  (permission_classes_by_action action).getD fallback

/-- `BaseRecipeAttrViewSet.permission_classes = (IsAuthenticated,)`, used for
every tag and ingredient action. -/
def attr_permission_classes : List PermissionClass := [.isAuthenticated]

/-- An authenticated request carries the id of `request.user`; an anonymous
request carries `none`. -/
structure Request where
  user : Option Int
deriving DecidableEq, Repr

/-- Outcome of a dispatched request. -/
inductive HttpResult (α : Type) where
  | ok (data : α)
  | badRequest (error : String)
  | unauthorized
deriving DecidableEq, Repr

def HttpResult.status {α : Type} : HttpResult α → Nat
  | .ok _ => 200
  | .badRequest _ => 400
  | .unauthorized => 401

/-- Modelled from the spec: the framework dispatch (outside `src/`) evaluates
the view's permission classes before the handler runs, rejecting the request
with a 401 and no data when one fails, and surfaces a request-parsing failure
raised inside the handler as a 400-class error response with no partial
data. -/
def dispatch {α : Type} (perms : List PermissionClass) (req : Request)
    (handler : Request → Except String α) : HttpResult α :=
  if perms.all (has_permission req.user.isSome) then
    match handler req with
    | .ok d => .ok d
    | .error e => .badRequest e
  else .unauthorized

/-- The tag list endpoint: `IsAuthenticated`, then the shared queryset.  The
anonymous branch of the handler is unreachable because the permission check
rejects first. -/
def tag_list (req : Request) (p : AttrParams) (db : Db) : HttpResult (List Attr) :=
  dispatch attr_permission_classes req fun rq =>
    match rq.user with
    | some u => tag_get_queryset p u db
    | none => .error "AnonymousUser"

def ingredient_list (req : Request) (p : AttrParams) (db : Db) :
    HttpResult (List Attr) :=
  dispatch attr_permission_classes req fun rq =>
    match rq.user with
    | some u => ingredient_get_queryset p u db
    | none => .error "AnonymousUser"

/-- The recipe list endpoint: per-action permissions (`list ↦ AllowAny`), then
`RecipeViewSet.get_queryset`, which ignores the request user. -/
def recipe_list (fallback : List PermissionClass) (req : Request)
    (p : RecipeParams) (db : Db) : HttpResult (List Recipe) :=
  dispatch (recipe_get_permissions fallback "list") req fun _ =>
    recipe_get_queryset p db

/-! ### Image upload (`RecipeViewSet.upload_image`) -/

/-- An uploaded payload.  Modelled from the spec: `RecipeImageSerializer` is
referenced by `views.py` but missing from `src/`; per the spec it validates
that the payload is a decodable image, and on save stores the file and records
its reference (`ref`) on the recipe. -/
structure UploadPayload where
  decodesAsImage : Bool
  ref : String
deriving DecidableEq, Repr

/-- Modelled from the spec: `serializer.is_valid()` for the image serializer
holds exactly when the payload decodes as an image. -/
def image_serializer_is_valid (p : UploadPayload) : Bool := p.decodesAsImage

/-- `upload_image`: validate; on success save and answer 200 with the updated
recipe; on failure answer 400 leaving the recipe untouched. -/
def upload_image (recipe : Recipe) (p : UploadPayload) : Nat × Recipe :=
  if image_serializer_is_valid p then
    (200, { recipe with image := some p.ref })
  else
    (400, recipe)

/-! ### Characterization lemmas -/

theorem mem_assignedJoin {recipes : List Recipe} {links : Recipe → List Int}
    {q : List Attr} {t : Attr} :
    t ∈ assignedJoin recipes links q ↔ t ∈ q ∧ ∃ r ∈ recipes, t.id ∈ links r := by
  simp only [assignedJoin, List.mem_flatMap, List.mem_map, List.mem_filter,
    decide_eq_true_eq]
  constructor
  · rintro ⟨t', ht', ⟨a, ⟨r, hr, ha, rfl⟩, rfl⟩⟩
    exact ⟨ht', r, hr, ha⟩
  · rintro ⟨ht, r, hr, ha⟩
    exact ⟨t, ht, ⟨t.id, ⟨r, hr, ha, rfl⟩, rfl⟩⟩

theorem mem_filterIdIn {ids : List Int} {links : Recipe → List Int}
    {q : List Recipe} {r : Recipe} :
    r ∈ filterIdIn ids links q ↔ r ∈ q ∧ ∃ i ∈ links r, i ∈ ids := by
  simp only [filterIdIn, List.mem_flatMap, List.mem_map, List.mem_filter,
    decide_eq_true_eq]
  constructor
  · rintro ⟨r', hr', ⟨a, ⟨ha, hin⟩, rfl⟩⟩
    exact ⟨hr', a, ha, hin⟩
  · rintro ⟨hr, i, hi, hin⟩
    exact ⟨r, hr, ⟨i, ⟨hi, hin⟩, rfl⟩⟩

/-- Everything the shared tag/ingredient queryset returns: owner-scoped,
optionally assigned-only, duplicate-free, name-descending. -/
theorem base_attr_get_queryset_ok (u : Int) (items : List Attr)
    (recipes : List Recipe) (links : Recipe → List Int)
    {p : AttrParams} {b : Bool} (hb : assignedOnlyFlag p = .ok b) :
    ∃ res, base_attr_get_queryset p u items recipes links = .ok res ∧
      (∀ t, t ∈ res ↔ t ∈ items ∧ t.user = u ∧
        (b = true → ∃ r ∈ recipes, t.id ∈ links r)) ∧
      res.Nodup ∧ res.Pairwise nameDesc := by
  refine ⟨(List.insertionSort nameDesc
      ((if b = true then assignedJoin recipes links items else items).filter
        fun t => t.user == u)).dedup, ?_, ?_, ?_, ?_⟩
  · simp [base_attr_get_queryset, hb, Except.bind]
  · intro t
    cases b <;>
      simp [List.mem_dedup, List.mem_insertionSort, List.mem_filter,
        mem_assignedJoin, decide_eq_true_eq, beq_iff_eq]
    all_goals tauto
  · exact List.nodup_dedup _
  · exact List.Pairwise.sublist (List.dedup_sublist _)
      (List.sorted_insertionSort nameDesc _)

/-- The shared queryset fails exactly as `bool(int(...))` fails. -/
theorem base_attr_get_queryset_error {p : AttrParams} {e : String} (u : Int)
    (items : List Attr) (recipes : List Recipe) (links : Recipe → List Int)
    (hb : assignedOnlyFlag p = .error e) :
    base_attr_get_queryset p u items recipes links = .error e := by
  simp [base_attr_get_queryset, hb, Except.bind]

/-- The shared queryset depends on the `assigned_only` parameter only through
`bool(int(...))`. -/
theorem base_attr_get_queryset_congr {p p' : AttrParams}
    (h : assignedOnlyFlag p = assignedOnlyFlag p') (u : Int) (items : List Attr)
    (recipes : List Recipe) (links : Recipe → List Int) :
    base_attr_get_queryset p u items recipes links =
      base_attr_get_queryset p' u items recipes links := by
  unfold base_attr_get_queryset
  rw [h]

theorem assignedOnlyFlag_some {v : String} {n : Int} (h : pyInt v = .ok n) :
    assignedOnlyFlag ⟨some v⟩ = .ok (n != 0) := by
  simp [assignedOnlyFlag, h, Except.bind]

theorem assignedOnlyFlag_some_error {v : String} {e : String}
    (h : pyInt v = .error e) : assignedOnlyFlag ⟨some v⟩ = .error e := by
  simp [assignedOnlyFlag, h, Except.bind]

theorem params_to_ints_go_error {ts : List (List Char)}
    (h : ∃ t ∈ ts, (pyInt ⟨t⟩).isOk = false) :
    (params_to_ints.go ts).isOk = false := by
  induction ts with
  | nil => simp at h
  | cons t ts ih =>
    rcases h with ⟨t', ht', hbad⟩
    rcases List.mem_cons.mp ht' with rfl | hmem
    · cases hp : pyInt ⟨t'⟩ with
      | error e => simp [params_to_ints.go, hp, Except.isOk, Except.toBool]
      | ok n => rw [hp] at hbad; simp [Except.isOk, Except.toBool] at hbad
    · cases hp : pyInt ⟨t⟩ with
      | error e => simp [params_to_ints.go, hp, Except.isOk, Except.toBool]
      | ok n =>
        have hrec := ih ⟨t', hmem, hbad⟩
        cases hg : params_to_ints.go ts with
        | error e =>
          simp [params_to_ints.go, hp, hg, Except.isOk, Except.toBool, Except.map]
        | ok l => rw [hg] at hrec; simp [Except.isOk, Except.toBool] at hrec

theorem params_to_ints_go_length {ts : List (List Char)} {l : List Int}
    (h : params_to_ints.go ts = .ok l) : l.length = ts.length := by
  induction ts generalizing l with
  | nil => simp [params_to_ints.go] at h; simp [← h]
  | cons t ts ih =>
    cases hp : pyInt ⟨t⟩ with
    | error e => simp [params_to_ints.go, hp] at h
    | ok n =>
      cases hg : params_to_ints.go ts with
      | error e => simp [params_to_ints.go, hp, hg, Except.map] at h
      | ok l' =>
        simp [params_to_ints.go, hp, hg, Except.map] at h
        simp [← h, ih hg]

/-- A malformed token anywhere in the comma-separated list makes
`_params_to_ints` raise: nothing is silently dropped. -/
theorem params_to_ints_error {qs : String}
    (h : ∃ t ∈ pySplit ',' qs.data, (pyInt ⟨t⟩).isOk = false) :
    (params_to_ints qs).isOk = false :=
  params_to_ints_go_error h

/-- A successful parse consumes every token: one integer per token. -/
theorem params_to_ints_length {qs : String} {l : List Int}
    (h : params_to_ints qs = .ok l) : l.length = (pySplit ',' qs.data).length :=
  params_to_ints_go_length h

theorem params_to_ints_ne_empty {s : String} {ids : List Int}
    (hs : params_to_ints s = .ok ids) : s.isEmpty = false := by
  cases hsE : s.isEmpty
  · rfl
  · exfalso
    have h0 : (params_to_ints "").isOk = false := by decide
    rw [(String.isEmpty_iff s).mp hsE] at hs
    rw [hs] at h0
    simp [Except.isOk, Except.toBool] at h0

/-- Everything the recipe queryset returns when only `tags` is supplied. -/
theorem recipe_get_queryset_tags (db : Db) {s : String} {ids : List Int}
    (hs : params_to_ints s = .ok ids) :
    ∃ res, recipe_get_queryset ⟨some s, none, none⟩ db = .ok res ∧
      (∀ r, r ∈ res ↔ r ∈ db.recipes ∧ ∃ i ∈ r.tags, i ∈ ids) ∧
      res.Pairwise idDesc := by
  have hne := params_to_ints_ne_empty hs
  refine ⟨List.insertionSort idDesc (filterIdIn ids (fun r => r.tags) db.recipes),
    ?_, ?_, ?_⟩
  · simp [recipe_get_queryset, strTruthy, hne, hs, Except.bind]
  · intro r
    simp [List.mem_insertionSort, mem_filterIdIn]
  · exact List.sorted_insertionSort idDesc _

/-- Everything the recipe queryset returns when only `ingredients` is
supplied. -/
theorem recipe_get_queryset_ingredients (db : Db) {s : String} {ids : List Int}
    (hs : params_to_ints s = .ok ids) :
    ∃ res, recipe_get_queryset ⟨none, some s, none⟩ db = .ok res ∧
      (∀ r, r ∈ res ↔ r ∈ db.recipes ∧ ∃ i ∈ r.ingredients, i ∈ ids) ∧
      res.Pairwise idDesc := by
  have hne := params_to_ints_ne_empty hs
  refine ⟨List.insertionSort idDesc
      (filterIdIn ids (fun r => r.ingredients) db.recipes), ?_, ?_, ?_⟩
  · simp [recipe_get_queryset, strTruthy, hne, hs, Except.bind]
  · intro r
    simp [List.mem_insertionSort, mem_filterIdIn]
  · exact List.sorted_insertionSort idDesc _

/-- A recipe row with fixed content fields, for concrete test populations. -/
def sampleRecipe (id user : Int) (tags ingredients : List Int) : Recipe :=
  { id := id, user := user, title := "r", time_minutes := 1, price := 1,
    link := "", image := none, tags := tags, ingredients := ingredients }

/-- C2: the stored owner of a created tag/ingredient/recipe is the
authenticated caller, whatever owner value the payload carried. -/
theorem claim_c2_owner_forced (caller : Int) (ap : AttrPayload)
    (rp : RecipePayload) (aid rid : Int) :
    (base_attr_perform_create caller ap aid).user = caller ∧
    (recipe_perform_create caller rp rid).user = caller :=
  ⟨rfl, rfl⟩

/-- C7: upload_image answers 200 and updates the image reference on a valid
payload, 400 with the recipe untouched on an invalid one. -/
theorem claim_c7_upload_image (r : Recipe) (p : UploadPayload) :
    (image_serializer_is_valid p = true →
      upload_image r p = (200, { r with image := some p.ref })) ∧
    (image_serializer_is_valid p = false →
      upload_image r p = (400, r)) := by
  constructor <;> intro h <;> simp [upload_image, h]

theorem claim_c7_upload_image_witness :
    upload_image (sampleRecipe 1 1 [] []) ⟨true, "up/1.jpg"⟩ =
      (200, { sampleRecipe 1 1 [] [] with image := some "up/1.jpg" }) ∧
    upload_image (sampleRecipe 1 1 [] []) ⟨false, "x"⟩ =
      (400, sampleRecipe 1 1 [] []) :=
  ⟨(claim_c7_upload_image (sampleRecipe 1 1 [] []) ⟨true, "up/1.jpg"⟩).1 rfl,
   (claim_c7_upload_image (sampleRecipe 1 1 [] []) ⟨false, "x"⟩).2 rfl⟩

/-- C8 counterexample: an empty email fails with ValueError, not with
ValidationError as the spec states. -/
theorem claim_c8_counterexample :
    create_user "" (some "secret") "Alice" =
      .error (.valueError "Users must have an email address") ∧
    failsWithValidationError (create_user "" (some "secret") "Alice") = false :=
  ⟨rfl, rfl⟩

/-- C8 (amended): create_user fails with ValueError exactly when the email is
empty; otherwise it stores a hashed password and default flags. -/
theorem claim_c8_create_user (email : String) (password : Option String)
    (nm : String) :
    (email = "" → create_user email password nm =
      .error (.valueError "Users must have an email address")) ∧
    (email ≠ "" → create_user email password nm =
      .ok { email := normalize_email email, name := nm,
            password := .hashed password, is_active := true,
            is_staff := false, is_superuser := false }) := by
  constructor
  · rintro rfl; rfl
  · intro h
    have he : email.isEmpty = false := by
      cases hE : email.isEmpty
      · rfl
      · exact absurd ((String.isEmpty_iff email).mp hE) h
    simp [create_user, he]

theorem claim_c8_create_user_witness :
    create_user "" none "" =
      .error (.valueError "Users must have an email address") ∧
    create_user "New@Example.COM" (some "pw") "n" =
      .ok { email := "New@example.com", name := "n",
            password := .hashed (some "pw"), is_active := true,
            is_staff := false, is_superuser := false } :=
  ⟨(claim_c8_create_user "" none "").1 rfl,
   by rw [(claim_c8_create_user "New@Example.COM" (some "pw") "n").2 (by decide)]
      decide⟩

/-- C9: the recipe filter path multiplies rows per matching association and
never de-duplicates, unlike the tag/ingredient path. -/
theorem claim_c9_duplicates :
    recipe_get_queryset ⟨some "1,2", none, none⟩
        { tags := [], ingredients := [], recipes := [sampleRecipe 10 1 [1, 2] []] } =
      .ok [sampleRecipe 10 1 [1, 2] [], sampleRecipe 10 1 [1, 2] []] ∧
    List.count (sampleRecipe 10 1 [1, 2] [])
        [sampleRecipe 10 1 [1, 2] [], sampleRecipe 10 1 [1, 2] []] = 2 ∧
    tag_get_queryset ⟨some "1"⟩ 1
        { tags := [⟨1, 1, "a"⟩], ingredients := [],
          recipes := [sampleRecipe 10 1 [1] [], sampleRecipe 11 1 [1] []] } =
      .ok [⟨1, 1, "a"⟩] := by
  decide

/-- C3: `assigned_only=1` tag/ingredient listing is exactly the caller's
entities with at least one linked recipe, duplicate-free, name-descending;
an empty match is an empty list, not an error. -/
theorem claim_c3_assigned_only (db : Db) (u : Int) :
    (∃ res, tag_get_queryset ⟨some "1"⟩ u db = .ok res ∧
      (∀ t, t ∈ res ↔ t ∈ db.tags ∧ t.user = u ∧
        ∃ r ∈ db.recipes, t.id ∈ r.tags) ∧
      res.Nodup ∧ res.Pairwise nameDesc) ∧
    (∃ res, ingredient_get_queryset ⟨some "1"⟩ u db = .ok res ∧
      (∀ t, t ∈ res ↔ t ∈ db.ingredients ∧ t.user = u ∧
        ∃ r ∈ db.recipes, t.id ∈ r.ingredients) ∧
      res.Nodup ∧ res.Pairwise nameDesc) := by
  have hb : assignedOnlyFlag ⟨some "1"⟩ = .ok true := by decide
  constructor
  · obtain ⟨res, h1, h2, h3, h4⟩ := base_attr_get_queryset_ok
      u db.tags db.recipes (fun r => r.tags) hb
    refine ⟨res, h1, fun t => ?_, h3, h4⟩
    rw [h2 t]
    simp
  · obtain ⟨res, h1, h2, h3, h4⟩ := base_attr_get_queryset_ok
      u db.ingredients db.recipes (fun r => r.ingredients) hb
    refine ⟨res, h1, fun t => ?_, h3, h4⟩
    rw [h2 t]
    simp

/-- C4: a two-id `tags` (resp. `ingredients`) filter returns exactly the
recipes linked to either id — a union — ordered by id descending. -/
theorem claim_c4_union_filter (db : Db) (s : String) (t1 t2 : Int)
    (hs : params_to_ints s = .ok [t1, t2]) :
    (∃ res, recipe_get_queryset ⟨some s, none, none⟩ db = .ok res ∧
      (∀ r, r ∈ res ↔ r ∈ db.recipes ∧ (t1 ∈ r.tags ∨ t2 ∈ r.tags)) ∧
      res.Pairwise idDesc) ∧
    (∃ res, recipe_get_queryset ⟨none, some s, none⟩ db = .ok res ∧
      (∀ r, r ∈ res ↔ r ∈ db.recipes ∧
        (t1 ∈ r.ingredients ∨ t2 ∈ r.ingredients)) ∧
      res.Pairwise idDesc) := by
  constructor
  · obtain ⟨res, h1, h2, h3⟩ := recipe_get_queryset_tags db hs
    refine ⟨res, h1, fun r => ?_, h3⟩
    rw [h2 r]
    constructor
    · rintro ⟨hr, i, hi, hmem⟩
      rcases List.mem_pair.mp hmem with rfl | rfl
      · exact ⟨hr, Or.inl hi⟩
      · exact ⟨hr, Or.inr hi⟩
    · rintro ⟨hr, h | h⟩
      · exact ⟨hr, t1, h, List.mem_pair.mpr (Or.inl rfl)⟩
      · exact ⟨hr, t2, h, List.mem_pair.mpr (Or.inr rfl)⟩
  · obtain ⟨res, h1, h2, h3⟩ := recipe_get_queryset_ingredients db hs
    refine ⟨res, h1, fun r => ?_, h3⟩
    rw [h2 r]
    constructor
    · rintro ⟨hr, i, hi, hmem⟩
      rcases List.mem_pair.mp hmem with rfl | rfl
      · exact ⟨hr, Or.inl hi⟩
      · exact ⟨hr, Or.inr hi⟩
    · rintro ⟨hr, h | h⟩
      · exact ⟨hr, t1, h, List.mem_pair.mpr (Or.inl rfl)⟩
      · exact ⟨hr, t2, h, List.mem_pair.mpr (Or.inr rfl)⟩

def c4Db : Db :=
  { tags := [], ingredients := [],
    recipes := [sampleRecipe 1 1 [3] [], sampleRecipe 2 1 [9] []] }

theorem claim_c4_union_filter_witness :
    params_to_ints "3,5" = .ok [3, 5] ∧
    (∃ res, recipe_get_queryset ⟨some "3,5", none, none⟩ c4Db = .ok res ∧
      (∀ r, r ∈ res ↔ r ∈ c4Db.recipes ∧
        ((3 : Int) ∈ r.tags ∨ (5 : Int) ∈ r.tags)) ∧
      res.Pairwise idDesc) :=
  ⟨by decide, (claim_c4_union_filter c4Db "3,5" 3 5 (by decide)).1⟩

def c1Recipe : Recipe := sampleRecipe 1 1 [] []

def c1Db : Db := { tags := [], ingredients := [], recipes := [c1Recipe] }

/-- C1 counterexample: user 2 lists recipes with no filters and receives the
recipe created by user 1 — the recipe queryset is not scoped to the caller. -/
theorem claim_c1_counterexample :
    c1Recipe.user = 1 ∧ (1 : Int) ≠ 2 ∧
    recipe_list [PermissionClass.isAuthenticated] ⟨some 2⟩ {} c1Db =
      .ok [c1Recipe] := by
  decide

/-- C1 (amended): tag and ingredient list results are owner-scoped — nothing
created by a different user ever appears; the recipe listing gives no such
guarantee. -/
theorem claim_c1_owner_scoping (p : AttrParams) (u1 u2 : Int) (db : Db)
    (h : u1 ≠ u2) (res res' : List Attr)
    (ht : tag_get_queryset p u2 db = .ok res)
    (hi : ingredient_get_queryset p u2 db = .ok res') :
    (∀ t ∈ res, t.user = u2 ∧ t.user ≠ u1) ∧
    (∀ t ∈ res', t.user = u2 ∧ t.user ≠ u1) := by
  cases hflag : assignedOnlyFlag p with
  | error e =>
    exfalso
    have hbase := base_attr_get_queryset_error u2 db.tags db.recipes
      (fun r => r.tags) hflag
    rw [show tag_get_queryset p u2 db =
      base_attr_get_queryset p u2 db.tags db.recipes (fun r => r.tags) from rfl,
      hbase] at ht
    exact Except.noConfusion ht
  | ok b =>
    constructor
    · obtain ⟨res0, h1, h2, _, _⟩ := base_attr_get_queryset_ok
        u2 db.tags db.recipes (fun r => r.tags) hflag
      rw [show tag_get_queryset p u2 db =
        base_attr_get_queryset p u2 db.tags db.recipes (fun r => r.tags) from rfl,
        h1] at ht
      cases Except.ok.inj ht
      intro t hmem
      have hu := ((h2 t).mp hmem).2.1
      exact ⟨hu, by rw [hu]; exact fun e => h e.symm⟩
    · obtain ⟨res0, h1, h2, _, _⟩ := base_attr_get_queryset_ok
        u2 db.ingredients db.recipes (fun r => r.ingredients) hflag
      rw [show ingredient_get_queryset p u2 db =
        base_attr_get_queryset p u2 db.ingredients db.recipes
          (fun r => r.ingredients) from rfl,
        h1] at hi
      cases Except.ok.inj hi
      intro t hmem
      have hu := ((h2 t).mp hmem).2.1
      exact ⟨hu, by rw [hu]; exact fun e => h e.symm⟩

def c1ScopeDb : Db :=
  { tags := [⟨5, 2, "salt"⟩, ⟨6, 1, "pepper"⟩],
    ingredients := [⟨7, 1, "basil"⟩], recipes := [] }

theorem claim_c1_owner_scoping_witness :
    (1 : Int) ≠ 2 ∧
    tag_get_queryset {} 2 c1ScopeDb = .ok [⟨5, 2, "salt"⟩] ∧
    ingredient_get_queryset {} 2 c1ScopeDb = .ok [] ∧
    Attr.user ⟨5, 2, "salt"⟩ = 2 ∧ Attr.user ⟨5, 2, "salt"⟩ ≠ 1 :=
  ⟨by decide, by decide, by decide,
   ((claim_c1_owner_scoping {} 1 2 c1ScopeDb (by decide) [⟨5, 2, "salt"⟩] []
      (by decide) (by decide)).1 ⟨5, 2, "salt"⟩ (by decide)).1,
   ((claim_c1_owner_scoping {} 1 2 c1ScopeDb (by decide) [⟨5, 2, "salt"⟩] []
      (by decide) (by decide)).1 ⟨5, 2, "salt"⟩ (by decide)).2⟩

/-- C5: with no credentials, every tag/ingredient action and the four
mutating recipe actions are rejected with 401 before the handler runs, while
recipe list and retrieve run their handler and succeed. -/
theorem claim_c5_auth_policy (fb : List PermissionClass) (req : Request)
    (hreq : req.user = none) :
    (∀ (α : Type) (h : Request → Except String α),
      dispatch attr_permission_classes req h = .unauthorized) ∧
    (∀ a ∈ ["create", "update", "partial_update", "destroy"],
      ∀ (α : Type) (h : Request → Except String α),
        dispatch (recipe_get_permissions fb a) req h = .unauthorized) ∧
    (∀ p db res, recipe_get_queryset p db = .ok res →
      recipe_list fb req p db = .ok res) ∧
    (∀ (α : Type) (h : Request → Except String α) (d : α), h req = .ok d →
      dispatch (recipe_get_permissions fb "retrieve") req h = .ok d) := by
  have hsome : req.user.isSome = false := by rw [hreq]; rfl
  refine ⟨?_, ?_, ?_, ?_⟩
  · intro α h
    simp [dispatch, attr_permission_classes, has_permission, hsome]
  · intro a ha α h
    have hperm : recipe_get_permissions fb a = [PermissionClass.isAuthenticated] := by
      simp at ha
      rcases ha with rfl | rfl | rfl | rfl <;> rfl
    rw [hperm]
    simp [dispatch, has_permission, hsome]
  · intro p db res hres
    have hperm : recipe_get_permissions fb "list" = [PermissionClass.allowAny] := rfl
    simp [recipe_list, dispatch, hperm, has_permission, hres]
  · intro α h d hd
    have hperm : recipe_get_permissions fb "retrieve" = [PermissionClass.allowAny] := rfl
    simp [dispatch, hperm, has_permission, hd]

theorem claim_c5_auth_policy_witness :
    tag_list ⟨none⟩ {} c1ScopeDb = .unauthorized ∧
    ingredient_list ⟨none⟩ {} c1ScopeDb = .unauthorized ∧
    dispatch (recipe_get_permissions [] "partial_update") ⟨none⟩
      (fun _ => (Except.ok [] : Except String (List Recipe))) = .unauthorized ∧
    recipe_list [] ⟨none⟩ {} c1Db = .ok [c1Recipe] :=
  ⟨(claim_c5_auth_policy [] ⟨none⟩ rfl).1 (List Attr) _,
   (claim_c5_auth_policy [] ⟨none⟩ rfl).1 (List Attr) _,
   (claim_c5_auth_policy [] ⟨none⟩ rfl).2.1 "partial_update" (by decide)
     (List Recipe) _,
   (claim_c5_auth_policy [] ⟨none⟩ rfl).2.2.1 {} c1Db [c1Recipe] (by decide)⟩

/-- C6: a non-integer token in `tags` or `ingredients` makes the whole list
request fail with a 400-class parsing error: no token is silently dropped and
no partial result is returned. -/
theorem claim_c6_malformed_ids (fb : List PermissionClass) (req : Request)
    (db : Db) (s : String) (hne : s ≠ "")
    (hbad : ∃ t ∈ pySplit ',' s.data, (pyInt ⟨t⟩).isOk = false) :
    (params_to_ints s).isOk = false ∧
    (∃ e, recipe_list fb req ⟨some s, none, none⟩ db = .badRequest e) ∧
    (∃ e, recipe_list fb req ⟨none, some s, none⟩ db = .badRequest e) := by
  have herr := params_to_ints_error hbad
  have hneB : s.isEmpty = false := by
    cases hE : s.isEmpty
    · rfl
    · exact absurd ((String.isEmpty_iff s).mp hE) hne
  cases hp : params_to_ints s with
  | ok l => rw [hp] at herr; simp [Except.isOk, Except.toBool] at herr
  | error e =>
    have hperm : recipe_get_permissions fb "list" = [PermissionClass.allowAny] := rfl
    refine ⟨rfl, ⟨e, ?_⟩, ⟨e, ?_⟩⟩
    · have hq : recipe_get_queryset ⟨some s, none, none⟩ db = .error e := by
        simp [recipe_get_queryset, strTruthy, hneB, hp, Except.bind]
      simp [recipe_list, dispatch, hperm, has_permission, hq]
    · have hq : recipe_get_queryset ⟨none, some s, none⟩ db = .error e := by
        simp [recipe_get_queryset, strTruthy, hneB, hp, Except.bind]
      simp [recipe_list, dispatch, hperm, has_permission, hq]

theorem claim_c6_malformed_ids_witness :
    ("1,x" : String) ≠ "" ∧
    (∃ t ∈ pySplit ',' ("1,x" : String).data, (pyInt ⟨t⟩).isOk = false) ∧
    (params_to_ints "1,x").isOk = false ∧
    (∃ e, recipe_list [] ⟨some 7⟩ ⟨some "1,x", none, none⟩ c1Db = .badRequest e) :=
  ⟨by decide, by decide,
   (claim_c6_malformed_ids [] ⟨some 7⟩ c1Db "1,x" (by decide) (by decide)).1,
   (claim_c6_malformed_ids [] ⟨some 7⟩ c1Db "1,x" (by decide) (by decide)).2.1⟩

/-- C10: `assigned_only` is `bool(int(value))`: any value parsing to a
non-zero integer switches the assigned-only filter on, any value parsing to
zero (and an absent value, which defaults to the integer 0) leaves it off,
and a non-integer value makes the listing raise. -/
theorem claim_c10_assigned_only_coercion (db : Db) (u : Int) (v : String) :
    (∀ n : Int, pyInt v = .ok n →
      (∃ res, tag_get_queryset ⟨some v⟩ u db = .ok res ∧
        ∀ t, t ∈ res ↔ t ∈ db.tags ∧ t.user = u ∧
          (n ≠ 0 → ∃ r ∈ db.recipes, t.id ∈ r.tags)) ∧
      (∃ res, ingredient_get_queryset ⟨some v⟩ u db = .ok res ∧
        ∀ t, t ∈ res ↔ t ∈ db.ingredients ∧ t.user = u ∧
          (n ≠ 0 → ∃ r ∈ db.recipes, t.id ∈ r.ingredients))) ∧
    (tag_get_queryset ⟨none⟩ u db = tag_get_queryset ⟨some "0"⟩ u db ∧
      ingredient_get_queryset ⟨none⟩ u db =
        ingredient_get_queryset ⟨some "0"⟩ u db) ∧
    (∀ e, pyInt v = .error e →
      tag_get_queryset ⟨some v⟩ u db = .error e ∧
      ingredient_get_queryset ⟨some v⟩ u db = .error e) := by
  refine ⟨?_, ⟨?_, ?_⟩, ?_⟩
  · intro n hn
    have hflag := assignedOnlyFlag_some hn
    constructor
    · obtain ⟨res, h1, h2, _, _⟩ := base_attr_get_queryset_ok
        u db.tags db.recipes (fun r => r.tags) hflag
      refine ⟨res, h1, fun t => ?_⟩
      rw [h2 t]
      simp only [bne_iff_ne, ne_eq]
    · obtain ⟨res, h1, h2, _, _⟩ := base_attr_get_queryset_ok
        u db.ingredients db.recipes (fun r => r.ingredients) hflag
      refine ⟨res, h1, fun t => ?_⟩
      rw [h2 t]
      simp only [bne_iff_ne, ne_eq]
  · exact base_attr_get_queryset_congr (by decide) u db.tags db.recipes
      (fun r => r.tags)
  · exact base_attr_get_queryset_congr (by decide) u db.ingredients db.recipes
      (fun r => r.ingredients)
  · intro e he
    have hflag := assignedOnlyFlag_some_error he
    exact ⟨base_attr_get_queryset_error u db.tags db.recipes (fun r => r.tags) hflag,
      base_attr_get_queryset_error u db.ingredients db.recipes
        (fun r => r.ingredients) hflag⟩

def c10Db : Db :=
  { tags := [⟨1, 1, "a"⟩, ⟨2, 1, "b"⟩], ingredients := [],
    recipes := [sampleRecipe 1 1 [1] []] }

theorem claim_c10_assigned_only_coercion_witness :
    pyInt "2" = .ok 2 ∧ pyInt "-1" = .ok (-1) ∧ pyInt "00" = .ok 0 ∧
    (∃ res, tag_get_queryset ⟨some "2"⟩ 1 c10Db = .ok res ∧
      ∀ t, t ∈ res ↔ t ∈ c10Db.tags ∧ t.user = 1 ∧
        ((2 : Int) ≠ 0 → ∃ r ∈ c10Db.recipes, t.id ∈ r.tags)) ∧
    (∃ res, tag_get_queryset ⟨some "-1"⟩ 1 c10Db = .ok res ∧
      ∀ t, t ∈ res ↔ t ∈ c10Db.tags ∧ t.user = 1 ∧
        ((-1 : Int) ≠ 0 → ∃ r ∈ c10Db.recipes, t.id ∈ r.tags)) ∧
    (∃ res, tag_get_queryset ⟨some "00"⟩ 1 c10Db = .ok res ∧
      ∀ t, t ∈ res ↔ t ∈ c10Db.tags ∧ t.user = 1 ∧
        ((0 : Int) ≠ 0 → ∃ r ∈ c10Db.recipes, t.id ∈ r.tags)) ∧
    tag_get_queryset ⟨none⟩ 1 c10Db = tag_get_queryset ⟨some "0"⟩ 1 c10Db ∧
    (tag_get_queryset ⟨some "x"⟩ 1 c10Db =
      .error "invalid literal for int() with base 10: x") :=
  ⟨by decide, by decide, by decide,
   ((claim_c10_assigned_only_coercion c10Db 1 "2").1 2 (by decide)).1,
   ((claim_c10_assigned_only_coercion c10Db 1 "-1").1 (-1) (by decide)).1,
   ((claim_c10_assigned_only_coercion c10Db 1 "00").1 0 (by decide)).1,
   (claim_c10_assigned_only_coercion c10Db 1 "x").2.1.1,
   ((claim_c10_assigned_only_coercion c10Db 1 "x").2.2
     "invalid literal for int() with base 10: x" (by decide)).1⟩

end RecipeApi
